import Mathlib

/-!
# Spincycle: chain repository, no-op job and job-log store

A shallow embedding of three pieces of the repository:

* `job-runner/chain/redis_repo.go`  : `RedisRepo` (`Add`, `Set`, `Get`, `Remove`, key format),
* `request-manager/grapher/noop.go` : `noopJob`,
* `request-manager/joblog/store.go` : `store.Get`.

Go functions become pure functions over an explicit store state.  A Go `error`
result is an `Option` (`none` is `nil`), a pointer is an `Option`, and a run-time
panic is an explicit outcome.  The deferred `conn.Close()` and `s.dbc.Close(conn)`
return the connection and do not touch the stored data; they are left out.  The Redis server, the redigo reply helpers,
`encoding/json`, `fmt.Sprintf` and the SQL driver are libraries; the part of their
documented behaviour that the embedded functions rely on is written out below.
-/

set_option autoImplicit false

namespace JobRunner

/-! ## Values shared by the chain package -/

/-- A Go `[]byte`. -/
abbrev Bytes := List UInt8

/-- Modelled from the spec: `ErrNotFound`, `ErrConflict` and `ErrMultipleDeleted` are
declared in another file of package `chain`, not embedded here; the spec
names them NotFound, Conflict and "a distinct fatal error", three different
sentinel values.

The type holds the Go `error` values that can come out of the chain repository: these
three, the errors of the redigo reply helpers (`redis.ErrNil`, the negative-integer and
the unexpected-type error) and of `strconv.ParseUint`, and `other` for any error
produced by a connection, the server or `encoding/json`. -/
inductive Error where
  | ErrNotFound
  | ErrConflict
  | ErrMultipleDeleted
  | redisErrNil
  | redisErrNegativeInt
  | redisUnexpectedType (helper : String)
  | strconvErrSyntax
  | strconvErrRange
  | other (msg : String)
  deriving DecidableEq, Repr

/-- The result of running a Go function body: it returns, or it panics. -/
inductive Outcome (α : Type) where
  | ret (a : α)
  | panic (msg : String)
  deriving DecidableEq, Repr

/-- The message of the Go run-time panic raised by a nil pointer dereference. -/
def nilDeref : String := "runtime error: invalid memory address or nil pointer dereference"

/-! ## The Redis side -/

/-- A reply as redigo hands it to the caller of `Do`: nil, an integer (`int64`),
a bulk string (`[]byte`), a simple string (`string`) or a server error
(`redis.Error`). -/
inductive Reply where
  | nil
  | int (n : Int)
  | bulk (b : Bytes)
  | str (s : String)
  | err (msg : String)
  deriving DecidableEq, Repr

/-- The commands that the repository sends. -/
inductive Command where
  | SETNX (key : String) (val : Bytes)
  | SET (key : String) (val : Bytes)
  | GET (key : String)
  | DEL (key : String)
  | PING
  deriving DecidableEq, Repr

/-- A connection taken from the pool, over a backing state `σ`: `Do` runs one command
and yields the reply, the error (if any) and the state afterwards. -/
structure Conn (σ : Type) where
  Do : Command → σ → (Reply × Option Error) × σ

/-- The string keyspace of a Redis server: each key holds a byte string or nothing. -/
abbrev Store := String → Option Bytes

/-- Writes `val` under `key`. -/
def Store.put (s : Store) (key : String) (val : Bytes) : Store :=
  fun k => if k = key then some val else s k

/-- Deletes `key`. -/
def Store.del (s : Store) (key : String) : Store :=
  fun k => if k = key then none else s k

/-- The commands as a reachable Redis server executes them on its string keyspace:
`SETNX` writes only when the key is absent and replies 1 or 0, `SET` always writes
and replies `OK`, `GET` replies the value or nil, `DEL` of one key replies how many
keys it deleted, 1 or 0. -/
def redisDo : Command → Store → (Reply × Option Error) × Store
  | .SETNX key val, s =>
    match s key with
    | none => ((.int 1, none), s.put key val)
    | some _ => ((.int 0, none), s)
  | .SET key val, s => ((.str "OK", none), s.put key val)
  | .GET key, s =>
    match s key with
    | none => ((.nil, none), s)
    | some v => ((.bulk v, none), s)
  | .DEL key, s =>
    match s key with
    | none => ((.int 0, none), s)
    | some _ => ((.int 1, none), s.del key)
  | .PING, s => ((.str "PONG", none), s)

/-- A healthy connection to a Redis server. -/
def redisConn : Conn Store := ⟨redisDo⟩

/-- The function `strconv.ParseUint(s, 10, 64)` on the bytes of `s`: a non-empty run of
ASCII digits whose value fits in 64 bits. -/
def parseUint10 (b : Bytes) : Except Error Nat :=
  if b = [] then .error .strconvErrSyntax
  else if b.all (fun c => decide (48 ≤ c.toNat ∧ c.toNat ≤ 57)) then
    let n := b.foldl (fun a c => 10 * a + (c.toNat - 48)) 0
    if n < 2 ^ 64 then .ok n else .error .strconvErrRange
  else .error .strconvErrSyntax

/-- The helper `redis.Uint64(reply, err)` of redigo. -/
def redisUint64 : Reply × Option Error → Except Error Nat
  | (_, some err) => .error err
  | (.int n, none) => if n < 0 then .error .redisErrNegativeInt else .ok n.toNat
  | (.bulk b, none) => parseUint10 b
  | (.nil, none) => .error .redisErrNil
  | (.err msg, none) => .error (.other msg)
  | (.str _, none) => .error (.redisUnexpectedType "Uint64")

/-- The helper `redis.Bytes(reply, err)` of redigo. -/
def redisBytes : Reply × Option Error → Except Error Bytes
  | (_, some err) => .error err
  | (.bulk b, none) => .ok b
  | (.str s, none) => .ok s.toUTF8.toList
  | (.nil, none) => .error .redisErrNil
  | (.err msg, none) => .error (.other msg)
  | (.int _, none) => .error (.redisUnexpectedType "Bytes")

/-! ## The chain and its JSON form -/

/-- A `sync.RWMutex`, by its observable state. -/
structure RWMutex where
  writer : Bool
  readers : Nat
  deriving DecidableEq, Repr

/-- The composite literal `sync.RWMutex{}`: an unlocked mutex. -/
def RWMutex.new : RWMutex := ⟨false, 0⟩

/-- Modelled from the spec: the job chain of package `proto` is declared elsewhere and
not embedded here.  The repository reads its `RequestId` (a `uint`); `rest` is every
other serialised field (the graph and the per-node state). -/
structure JobChain (ρ : Type) where
  RequestId : Nat
  rest : ρ
  deriving DecidableEq, Repr

/-- Modelled from the spec: the struct `chain` is declared elsewhere and not embedded here.
The repository uses two of its fields, `JobChain` and the embedded `*sync.RWMutex`. -/
structure chain (ρ : Type) where
  JobChain : JobChain ρ
  RWMutex : Option RWMutex
  deriving DecidableEq, Repr

/-- What the rest of package `chain` fixes and `redis_repo.go` only uses: the constant
`CHAIN_KEY`, and how `encoding/json` encodes a `chain` value and decodes a JSON
document other than `null` into a newly allocated `chain`. -/
structure Decls (ρ : Type) where
  CHAIN_KEY : String
  encode : chain ρ → Except Error Bytes
  decode : Bytes → Except Error (chain ρ)

/-- JSON white space: space, tab, line feed, carriage return. -/
def isJsonSpace (c : UInt8) : Bool :=
  c = 0x20 || c = 0x09 || c = 0x0A || c = 0x0D

/-- The bytes of the JSON literal `null`. -/
def nullLiteral : Bytes := [0x6E, 0x75, 0x6C, 0x6C]

/-- Strips JSON white space at both ends. -/
def trimJsonSpace (b : Bytes) : Bytes :=
  ((b.dropWhile isJsonSpace).reverse.dropWhile isJsonSpace).reverse

/-- The call `json.Marshal(chain)` for a `*chain`: a nil pointer encodes as `null`. -/
def jsonMarshal {ρ : Type} (d : Decls ρ) : Option (chain ρ) → Except Error Bytes
  | none => .ok nullLiteral
  | some c => d.encode c

/-- The call `json.Unmarshal(data, &chain)` for a nil `chain *chain`: the literal
`null` leaves the pointer nil without error; any other document either fails or is
decoded into a newly allocated chain. -/
def jsonUnmarshal {ρ : Type} (d : Decls ρ) (data : Bytes) : Except Error (Option (chain ρ)) :=
  if trimJsonSpace data = nullLiteral then .ok none
  else
    match d.decode data with
    | .error e => .error e
    | .ok c => .ok (some c)

/-! ## Key format -/

/-- An operand of `fmt.Sprintf`. -/
inductive FmtArg where
  | str (s : String)
  | uint (n : Nat)
  deriving DecidableEq, Repr

/-- The function `fmt.Sprintf` for the verbs the repository uses: `%s` with a string
operand writes the string as is, `%d` with an unsigned operand writes it in decimal,
every other character of the format is copied. -/
def sprintfAux : List Char → List FmtArg → List Char
  | '%' :: 's' :: cs, .str s :: as => s.data ++ sprintfAux cs as
  | '%' :: 'd' :: cs, .uint n :: as => (Nat.repr n).data ++ sprintfAux cs as
  | c :: cs, as => c :: sprintfAux cs as
  | [], _ => []

/-- See `sprintfAux`. -/
def Sprintf (format : String) (args : List FmtArg) : String :=
  ⟨sprintfAux format.data args⟩

/-- RedisRepoConfig contains all info necessary to build a RedisRepo. -/
structure RedisRepoConfig where
  Server : String
  Port : Nat
  Prefix : String
  MaxIdle : Int
  IdleTimeout : Int
  deriving DecidableEq, Repr

/-- The repository: `ConnectionPool` is the connection that `ConnectionPool.Get()`
hands out, `Conf` the config the repository was built with. -/
structure RedisRepo (σ : Type) where
  ConnectionPool : Conn σ
  Conf : RedisRepoConfig

variable {σ ρ : Type}

/-- fmtIdKey takes a Chain RequestId and returns the key where that Chain is
stored in redis. -/
def RedisRepo.fmtIdKey (r : RedisRepo σ) (d : Decls ρ) (id : Nat) : String :=
  Sprintf "%s::%s::%d" [.str r.Conf.Prefix, .str d.CHAIN_KEY, .uint id]

/-- fmtChainKey takes a Chain and returns the key where that Chain is stored in
redis.  Reading `chain.JobChain` through a nil pointer panics. -/
def RedisRepo.fmtChainKey (r : RedisRepo σ) (d : Decls ρ) : Option (chain ρ) → Outcome String
  | none => .panic nilDeref
  | some c => .ret (r.fmtIdKey d c.JobChain.RequestId)

/-! ## Repository operations -/

/-- Add adds a chain to redis and returns any error encountered. -/
def RedisRepo.Add (r : RedisRepo σ) (d : Decls ρ) (c : Option (chain ρ)) (s : σ) :
    Outcome (Option Error) × σ :=
  let conn := r.ConnectionPool
  match jsonMarshal d c with
  | .error err => (.ret (some err), s)
  | .ok marshalled =>
    match r.fmtChainKey d c with
    | .panic msg => (.panic msg, s)
    | .ret key =>
      let (reply, s1) := conn.Do (.SETNX key marshalled) s
      match redisUint64 reply with
      | .error err => (.ret (some err), s1)
      | .ok ct =>
        if ct ≠ 1 then (.ret (some .ErrConflict), s1)
        else (.ret none, s1)

/-- Set writes a chain to redis, overwriting any if it exists. -/
def RedisRepo.Set (r : RedisRepo σ) (d : Decls ρ) (c : Option (chain ρ)) (s : σ) :
    Outcome (Option Error) × σ :=
  let conn := r.ConnectionPool
  match jsonMarshal d c with
  | .error err => (.ret (some err), s)
  | .ok marshalled =>
    match r.fmtChainKey d c with
    | .panic msg => (.panic msg, s)
    | .ret key =>
      let (reply, s1) := conn.Do (.SET key marshalled) s
      (.ret reply.2, s1)

/-- Get takes a Chain RequestId and retrieves that Chain from redis.  The assignment
`chain.RWMutex = &sync.RWMutex{}` goes through the pointer that `json.Unmarshal`
left in `chain`. -/
def RedisRepo.Get (r : RedisRepo σ) (d : Decls ρ) (id : Nat) (s : σ) :
    Outcome (Option (chain ρ) × Option Error) × σ :=
  let conn := r.ConnectionPool
  let key := r.fmtIdKey d id
  let (reply, s1) := conn.Do (.GET key) s
  match redisBytes reply with
  | .error err => (.ret (none, some err), s1)
  | .ok data =>
    match jsonUnmarshal d data with
    | .error err => (.ret (none, some err), s1)
    | .ok none => (.panic nilDeref, s1)
    | .ok (some c) => (.ret (some { c with RWMutex := some RWMutex.new }, none), s1)

/-- Remove takes a Chain RequestId and deletes that Chain from redis. -/
def RedisRepo.Remove (r : RedisRepo σ) (d : Decls ρ) (id : Nat) (s : σ) :
    Outcome (Option Error) × σ :=
  let conn := r.ConnectionPool
  let key := r.fmtIdKey d id
  let (reply, s1) := conn.Do (.DEL key) s
  match redisUint64 reply with
  | .error err => (.ret (some err), s1)
  | .ok num =>
    match num with
    | 0 => (.ret (some .ErrNotFound), s1)
    | 1 => (.ret none, s1)
    | _ => (.ret (some .ErrMultipleDeleted), s1)

/-- The method `ping`: runs a PING against the redis server. -/
def RedisRepo.ping (r : RedisRepo σ) (s : σ) : Option Error × σ :=
  let conn := r.ConnectionPool
  let (reply, s1) := conn.Do .PING s
  (reply.2, s1)

/-- The repository that `NewRedisRepo(c)` builds, with its pool connected to a reachable
Redis server. -/
def RedisRepo.onServer (c : RedisRepoConfig) : RedisRepo Store :=
  { ConnectionPool := redisConn, Conf := c }

/-! ## Reading a decimal numeral back -/

/-- The value of an ASCII digit. -/
def digitVal (c : Char) : Nat := c.toNat - 48

/-- The value of a run of decimal digits, continuing from `acc`. -/
def decVal (l : List Char) (acc : Nat) : Nat :=
  l.foldl (fun a c => 10 * a + digitVal c) acc

/-! ## A small codec for concrete instances -/

/-- A codec over chains without further payload: a chain is written as the decimal
digits of its request id, and a run of digits is read back as a chain with that id. -/
def sampleDecls : Decls Unit where
  CHAIN_KEY := "ChainById"
  encode := fun c => .ok ((Nat.toDigits 10 c.JobChain.RequestId).map (fun ch => ch.toNat.toUInt8))
  decode := fun b =>
    match parseUint10 b with
    | .error e => .error e
    | .ok n => .ok { JobChain := { RequestId := n, rest := () }, RWMutex := none }

/-- A sample configuration. -/
def sampleConf : RedisRepoConfig :=
  { Server := "localhost", Port := 6379, Prefix := "SpinCycle", MaxIdle := 3, IdleTimeout := 240 }

/-- A sample chain, request id 7. -/
def sampleChain : chain Unit :=
  { JobChain := { RequestId := 7, rest := () }, RWMutex := some RWMutex.new }

/-- The empty keyspace. -/
def emptyStore : Store := fun _ => none

/-- A connection without state that answers every command with the same reply. -/
def constConn (reply : Reply × Option Error) : Conn Unit :=
  { Do := fun _ _ => (reply, ()) }

/-- A connection that records, in order, every command it is sent, and answers each with
the same reply. -/
def logConn (reply : Reply × Option Error) : Conn (List Command) :=
  { Do := fun cmd log => (reply, log ++ [cmd]) }

end JobRunner

namespace Grapher

/-! ## The no-op job (`request-manager/grapher/noop.go`) -/

/-- Modelled from the spec: the job states of package `proto`, declared elsewhere and
not embedded here; the spec lists Pending, Running, Complete, Fail and Stop. -/
inductive State where
  | STATE_PENDING
  | STATE_RUNNING
  | STATE_COMPLETE
  | STATE_FAIL
  | STATE_STOPPED
  deriving DecidableEq, Repr

/-- Modelled from the spec: the struct `job.Return` is declared elsewhere and not
embedded here; its fields are the five that the literal in `noopJob.Run` sets.  A Go
`error` is an optional message. -/
structure Return where
  Exit : Int
  Error : Option String
  Stdout : String
  Stderr : String
  State : State
  deriving DecidableEq, Repr

/-- A Go `map[string]interface{}` over values of type `ν`: nil, or a finite map. -/
abbrev GoMap (ν : Type) := Option (List (String × ν))

/-- noopJob is a no-op job that does nothing and always returns success.  The type
`ι` is `job.Id`. -/
structure noopJob (ι : Type) where
  id : ι
  deriving DecidableEq, Repr

/-- What a method call leaves behind: its results, the receiver and the argument as
they are after the call. -/
structure Call (ι α β : Type) where
  result : β
  receiver : noopJob ι
  arg : α

variable {ι ν : Type}

/-- The method `Create`. -/
def noopJob.Create (j : noopJob ι) (jobArgs : GoMap ν) : Call ι (GoMap ν) (Option String) :=
  { result := none, receiver := j, arg := jobArgs }

/-- The method `Serialize`: a nil byte slice and a nil error. -/
def noopJob.Serialize (j : noopJob ι) : Call ι Unit (Option (List UInt8) × Option String) :=
  { result := (none, none), receiver := j, arg := () }

/-- The method `Deserialize`. -/
def noopJob.Deserialize (j : noopJob ι) (bytes : Option (List UInt8)) :
    Call ι (Option (List UInt8)) (Option String) :=
  { result := none, receiver := j, arg := bytes }

/-- The method `Run`. -/
def noopJob.Run (j : noopJob ι) (jobData : GoMap ν) :
    Call ι (GoMap ν) (Return × Option String) :=
  let ret : Return :=
    { Exit := 0, Error := none, Stdout := "", Stderr := "", State := .STATE_COMPLETE }
  { result := (ret, none), receiver := j, arg := jobData }

/-- The method `Status`. -/
def noopJob.Status (j : noopJob ι) : Call ι Unit String :=
  { result := "nop", receiver := j, arg := () }

/-- The method `Stop`. -/
def noopJob.Stop (j : noopJob ι) : Call ι Unit (Option String) :=
  { result := none, receiver := j, arg := () }

/-- The method `Id`. -/
def noopJob.Id (j : noopJob ι) : Call ι Unit ι :=
  { result := j.id, receiver := j, arg := () }

end Grapher

namespace Joblog

/-! ## The job-log store (`request-manager/joblog/store.go`) -/

/-- Errors of the job-log store: `sql.ErrNoRows`, the value of
`db.NewErrNotFound(what)`, and any other connection or driver error. -/
inductive Error where
  | sqlErrNoRows
  | dbErrNotFound (what : String)
  | other (msg : String)
  deriving DecidableEq, Repr

/-- The call `db.NewErrNotFound(what)`. -/
def NewErrNotFound (what : String) : Error := .dbErrNotFound what

/-- Modelled from the spec: the struct `proto.JobLog` is declared elsewhere and not
embedded here.  Its fields are the twelve that `store.Get` fills; the spec lists them
as job id, name, attempt number, type, timestamps, state, exit code, error text and
captured output.  The field `Type` is written `Type_`. -/
structure JobLog where
  RequestId : String
  JobId : String
  Name : String
  Type_ : String
  State : Nat
  StartedAt : Int
  FinishedAt : Int
  Error : String
  Exit : Int
  Stdout : String
  Stderr : String
  Try : Nat
  deriving DecidableEq, Repr

/-- The zero value of `proto.JobLog`, as `var jl proto.JobLog` gives it. -/
def JobLog.zero : JobLog :=
  { RequestId := "", JobId := "", Name := "", Type_ := "", State := 0, StartedAt := 0,
    FinishedAt := 0, Error := "", Exit := 0, Stdout := "", Stderr := "", Try := 0 }

/-- Modelled from the spec: the schema of table `job_log` is not part of the embedded files.
A row has the twelve columns that `store.Create` inserts; per the spec the columns
`error`, `exit`, `stdout` and `stderr` are nullable (`none` is NULL), the others are
not.  The column `try` is written `try_`. -/
structure Row where
  request_id : String
  job_id : String
  name : String
  try_ : Nat
  type : String
  started_at : Int
  finished_at : Int
  state : Nat
  exit : Option Int
  error : Option String
  stdout : Option String
  stderr : Option String
  deriving DecidableEq, Repr

/-- The type `sql.NullString`. -/
structure NullString where
  String : String
  Valid : Bool
  deriving DecidableEq, Repr

/-- The type `sql.NullInt64`. -/
structure NullInt64 where
  Int64 : Int
  Valid : Bool
  deriving DecidableEq, Repr

/-- Scanning a nullable text column into a `sql.NullString`. -/
def scanNullString : Option String → NullString
  | none => { String := "", Valid := false }
  | some v => { String := v, Valid := true }

/-- Scanning a nullable integer column into a `sql.NullInt64`. -/
def scanNullInt64 : Option Int → NullInt64
  | none => { Int64 := 0, Valid := false }
  | some v => { Int64 := v, Valid := true }

/-- An open connection: the rows of `job_log`, and the error with which a query on
this connection fails, if it does. -/
structure DBConn where
  job_log : List Row
  fault : Option Error

/-- The connector `dbc`: `Open` gives a connection or fails. -/
structure Connector where
  Open : Except Error DBConn

/-- store implements the Store interface. -/
structure store where
  dbc : Connector

/-- The order of `ORDER BY try DESC`. -/
def tryDesc (a b : Row) : Prop := b.try_ ≤ a.try_

instance : DecidableRel tryDesc := fun a b => inferInstanceAs (Decidable (b.try_ ≤ a.try_))

instance : IsTotal Row tryDesc := ⟨fun a b => Nat.le_total b.try_ a.try_⟩

instance : IsTrans Row tryDesc := ⟨fun _ _ _ hab hbc => Nat.le_trans hbc hab⟩

/-- The query of `store.Get`:
`SELECT ... FROM job_log WHERE request_id = ? AND job_id = ? ORDER BY try DESC LIMIT 1`,
then `Scan`: the first row of the ordered result, or `sql.ErrNoRows`. -/
def queryLatest (conn : DBConn) (requestId jobId : String) : Except Error Row :=
  match conn.fault with
  | some err => .error err
  | none =>
    let matching := conn.job_log.filter (fun r => r.request_id = requestId ∧ r.job_id = jobId)
    match (matching.insertionSort tryDesc).head? with
    | none => .error .sqlErrNoRows
    | some row => .ok row

/-- The method `Get` of the store: gets a single job log. -/
def store.Get (s : store) (requestId jobId : String) : JobLog × Option Error :=
  let jl := JobLog.zero
  match s.dbc.Open with
  | .error err => (jl, some err)
  | .ok conn =>
    match queryLatest conn requestId jobId with
    | .error err =>
      if err = .sqlErrNoRows then (jl, some (NewErrNotFound "job log"))
      else (jl, some err)
    | .ok row =>
      let jl := { jl with
        RequestId := row.request_id, JobId := row.job_id, Name := row.name, Type_ := row.type,
        State := row.state, StartedAt := row.started_at, FinishedAt := row.finished_at,
        Try := row.try_ }
      let jErr := scanNullString row.error
      let exit := scanNullInt64 row.exit
      let stdout := scanNullString row.stdout
      let stderr := scanNullString row.stderr
      let jl := if jErr.Valid then { jl with Error := jErr.String } else jl
      let jl := if stdout.Valid then { jl with Stdout := stdout.String } else jl
      let jl := if stderr.Valid then { jl with Stderr := stderr.String } else jl
      let jl := if exit.Valid then { jl with Exit := exit.Int64 } else jl
      (jl, none)

/-- The record that a row scans into, taking NULL to the zero value of the field. -/
def Row.toJobLog (row : Row) : JobLog :=
  { RequestId := row.request_id, JobId := row.job_id, Name := row.name, Type_ := row.type,
    State := row.state, StartedAt := row.started_at, FinishedAt := row.finished_at,
    Error := row.error.getD "", Exit := row.exit.getD 0, Stdout := row.stdout.getD "",
    Stderr := row.stderr.getD "", Try := row.try_ }

/-- A store over a database that is reachable and holds the given rows. -/
def store.onTable (rows : List Row) : store :=
  { dbc := { Open := .ok { job_log := rows, fault := none } } }

/-- Three sample rows: two attempts of job `a`, one of job `b`, all of request `r1`. -/
def sampleRows : List Row :=
  [ { request_id := "r1", job_id := "a", name := "n", try_ := 1, type := "t", started_at := 10,
      finished_at := 20, state := 4, exit := some 1, error := some "boom", stdout := none,
      stderr := some "e" },
    { request_id := "r1", job_id := "a", name := "n", try_ := 2, type := "t", started_at := 30,
      finished_at := 40, state := 3, exit := none, error := none, stdout := some "out",
      stderr := none },
    { request_id := "r1", job_id := "b", name := "m", try_ := 5, type := "t", started_at := 50,
      finished_at := 60, state := 3, exit := some 0, error := none, stdout := none,
      stderr := none } ]

end Joblog

/-! # Theorems -/

namespace JobRunner

variable {σ ρ : Type}

/-! ## Key format -/

theorem sprintfAux_key (p k : String) (n : Nat) :
    sprintfAux "%s::%s::%d".data [.str p, .str k, .uint n]
      = p.data ++ (':' :: ':' :: (k.data ++ (':' :: ':' :: (Nat.repr n).data))) := by
  simp [sprintfAux]

theorem fmtIdKey_data (r : RedisRepo σ) (d : Decls ρ) (id : Nat) :
    (r.fmtIdKey d id).data
      = r.Conf.Prefix.data ++ (':' :: ':' :: (d.CHAIN_KEY.data ++ (':' :: ':' :: (Nat.repr id).data))) := by
  exact sprintfAux_key r.Conf.Prefix d.CHAIN_KEY id

theorem digitVal_digitChar (k : Nat) (h : k < 10) : digitVal (Nat.digitChar k) = k := by
  interval_cases k <;> rfl

theorem decVal_toDigitsCore (fuel : Nat) :
    ∀ (n : Nat) (ds : List Char), n < fuel →
      decVal (Nat.toDigitsCore 10 fuel n ds) 0 = decVal ds n := by
  induction fuel with
  | zero => intro n ds h; omega
  | succ f ih =>
    intro n ds h
    have hd : digitVal (Nat.digitChar (n % 10)) = n % 10 :=
      digitVal_digitChar _ (Nat.mod_lt _ (by decide))
    unfold Nat.toDigitsCore
    by_cases h0 : n / 10 = 0
    · have hn : n % 10 = n := Nat.mod_eq_of_lt (by omega)
      rw [hn] at hd
      simp only [h0, if_true, decVal, List.foldl_cons, hd, Nat.mul_zero, Nat.zero_add, hn]
    · have hlt : n / 10 < f := by omega
      have hn : 10 * (n / 10) + n % 10 = n := Nat.div_add_mod n 10
      simp only [h0, if_false]
      rw [ih (n / 10) _ hlt]
      simp [decVal, hd, hn]

theorem decVal_repr (n : Nat) : decVal (Nat.repr n).data 0 = n := by
  have h := decVal_toDigitsCore (n + 1) n [] (Nat.lt_succ_self n)
  simpa [Nat.repr, Nat.toDigits, List.asString, decVal] using h

theorem repr_injective {a b : Nat} (h : Nat.repr a = Nat.repr b) : a = b := by
  have := congrArg (fun s => decVal s.data 0) h
  simpa [decVal_repr] using this

theorem fmtIdKey_inj (r : RedisRepo σ) (d : Decls ρ) {a b : Nat}
    (h : r.fmtIdKey d a = r.fmtIdKey d b) : a = b := by
  have hd := congrArg String.data h
  rw [fmtIdKey_data, fmtIdKey_data] at hd
  have h1 := List.append_cancel_left hd
  simp only [List.cons.injEq, true_and] at h1
  have h2 := List.append_cancel_left h1
  simp only [List.cons.injEq, true_and] at h2
  exact repr_injective (String.ext h2)

/-! ## The operations on a Redis store, case by case -/

theorem Add_of_absent (r : RedisRepo Store) (hr : r.ConnectionPool = redisConn) (d : Decls ρ)
    (c : chain ρ) (m : Bytes) (s : Store) (hm : jsonMarshal d (some c) = .ok m)
    (h : s (r.fmtIdKey d c.JobChain.RequestId) = none) :
    r.Add d (some c) s = (.ret none, s.put (r.fmtIdKey d c.JobChain.RequestId) m) := by
  simp [RedisRepo.Add, RedisRepo.fmtChainKey, hm, hr, redisConn, redisDo, h, redisUint64]

theorem Add_of_present (r : RedisRepo Store) (hr : r.ConnectionPool = redisConn) (d : Decls ρ)
    (c : chain ρ) (m v : Bytes) (s : Store) (hm : jsonMarshal d (some c) = .ok m)
    (h : s (r.fmtIdKey d c.JobChain.RequestId) = some v) :
    r.Add d (some c) s = (.ret (some .ErrConflict), s) := by
  simp [RedisRepo.Add, RedisRepo.fmtChainKey, hm, hr, redisConn, redisDo, h, redisUint64]

theorem Add_of_marshal_error (r : RedisRepo σ) (d : Decls ρ) (c : Option (chain ρ)) (e : Error)
    (s : σ) (hm : jsonMarshal d c = .error e) : r.Add d c s = (.ret (some e), s) := by
  simp [RedisRepo.Add, hm]

theorem Set_of_marshal_ok (r : RedisRepo Store) (hr : r.ConnectionPool = redisConn) (d : Decls ρ)
    (c : chain ρ) (m : Bytes) (s : Store) (hm : jsonMarshal d (some c) = .ok m) :
    r.Set d (some c) s = (.ret none, s.put (r.fmtIdKey d c.JobChain.RequestId) m) := by
  simp [RedisRepo.Set, RedisRepo.fmtChainKey, hm, hr, redisConn, redisDo]

theorem Set_of_marshal_error (r : RedisRepo σ) (d : Decls ρ) (c : Option (chain ρ)) (e : Error)
    (s : σ) (hm : jsonMarshal d c = .error e) : r.Set d c s = (.ret (some e), s) := by
  simp [RedisRepo.Set, hm]

theorem Get_of_absent (r : RedisRepo Store) (hr : r.ConnectionPool = redisConn) (d : Decls ρ)
    (id : Nat) (s : Store) (h : s (r.fmtIdKey d id) = none) :
    r.Get d id s = (.ret (none, some .redisErrNil), s) := by
  simp [RedisRepo.Get, hr, redisConn, redisDo, h, redisBytes]

theorem Get_of_present (r : RedisRepo Store) (hr : r.ConnectionPool = redisConn) (d : Decls ρ)
    (id : Nat) (s : Store) (v : Bytes) (h : s (r.fmtIdKey d id) = some v) :
    r.Get d id s =
      match jsonUnmarshal d v with
      | .error err => (.ret (none, some err), s)
      | .ok none => (.panic nilDeref, s)
      | .ok (some c) => (.ret (some { c with RWMutex := some RWMutex.new }, none), s) := by
  simp [RedisRepo.Get, hr, redisConn, redisDo, h, redisBytes]

theorem Remove_of_absent (r : RedisRepo Store) (hr : r.ConnectionPool = redisConn) (d : Decls ρ)
    (id : Nat) (s : Store) (h : s (r.fmtIdKey d id) = none) :
    r.Remove d id s = (.ret (some .ErrNotFound), s) := by
  simp [RedisRepo.Remove, hr, redisConn, redisDo, h, redisUint64]

theorem Remove_of_present (r : RedisRepo Store) (hr : r.ConnectionPool = redisConn) (d : Decls ρ)
    (id : Nat) (s : Store) (v : Bytes) (h : s (r.fmtIdKey d id) = some v) :
    r.Remove d id s = (.ret none, s.del (r.fmtIdKey d id)) := by
  simp [RedisRepo.Remove, hr, redisConn, redisDo, h, redisUint64]

theorem Store.put_same (s : Store) (k : String) (v : Bytes) : (s.put k v) k = some v := by
  simp [Store.put]

theorem Store.put_other (s : Store) (k k2 : String) (v : Bytes) (h : k2 ≠ k) :
    (s.put k v) k2 = s k2 := by
  simp [Store.put, h]

theorem Store.del_same (s : Store) (k : String) : (s.del k) k = none := by
  simp [Store.del]

theorem Store.del_other (s : Store) (k k2 : String) (h : k2 ≠ k) : (s.del k) k2 = s k2 := by
  simp [Store.del, h]

theorem fmtIdKey_conf (r : RedisRepo σ) {τ : Type} (r2 : RedisRepo τ) (d : Decls ρ) (id : Nat)
    (h : r2.Conf = r.Conf) : r2.fmtIdKey d id = r.fmtIdKey d id := by
  simp [RedisRepo.fmtIdKey, h]

theorem Add_sends (r : RedisRepo (List Command)) (reply : Reply × Option Error)
    (hr : r.ConnectionPool = logConn reply) (d : Decls ρ) (c : chain ρ) (m : Bytes)
    (log : List Command) (hm : jsonMarshal d (some c) = .ok m) :
    (r.Add d (some c) log).2 = log ++ [.SETNX (r.fmtIdKey d c.JobChain.RequestId) m] := by
  simp only [RedisRepo.Add, RedisRepo.fmtChainKey, hm, hr, logConn]
  split
  · rfl
  · split <;> rfl

theorem Set_sends (r : RedisRepo (List Command)) (reply : Reply × Option Error)
    (hr : r.ConnectionPool = logConn reply) (d : Decls ρ) (c : chain ρ) (m : Bytes)
    (log : List Command) (hm : jsonMarshal d (some c) = .ok m) :
    (r.Set d (some c) log).2 = log ++ [.SET (r.fmtIdKey d c.JobChain.RequestId) m] := by
  simp only [RedisRepo.Set, RedisRepo.fmtChainKey, hm, hr, logConn]

theorem Get_sends (r : RedisRepo (List Command)) (reply : Reply × Option Error)
    (hr : r.ConnectionPool = logConn reply) (d : Decls ρ) (id : Nat) (log : List Command) :
    (r.Get d id log).2 = log ++ [.GET (r.fmtIdKey d id)] := by
  simp only [RedisRepo.Get, hr, logConn]
  split
  · rfl
  · split <;> rfl

theorem Remove_sends (r : RedisRepo (List Command)) (reply : Reply × Option Error)
    (hr : r.ConnectionPool = logConn reply) (d : Decls ρ) (id : Nat) (log : List Command) :
    (r.Remove d id log).2 = log ++ [.DEL (r.fmtIdKey d id)] := by
  simp only [RedisRepo.Remove, hr, logConn]
  split
  · rfl
  · split <;> rfl

/-- C6. Key format: `fmtIdKey(id)` is `Prefix ++ "::" ++ CHAIN_KEY ++ "::" ++` the decimal
numeral of `id`; `fmtChainKey(chain)` is `fmtIdKey(chain.JobChain.RequestId)`; and two
repositories with the same prefix, whatever their connection and the rest of their
configuration, give a request id the same key.  The operations use that key: over a
connection that records what it is sent, whatever it replies, `Add` of a chain that
marshals to `m` sends exactly `SETNX key m` and `Set` exactly `SET key m`, with `key` the
`fmtIdKey` of the chain's request id, and `Get(id)` and `Remove(id)` send exactly
`GET` and `DEL` of `fmtIdKey(id)`.  So on a Redis store, after `Set`, or after `Add` on an
empty key, `Get` of the chain's request id reads the bytes just written and `Remove` of
it deletes them and returns nil. -/
theorem key_format (r : RedisRepo σ) (d : Decls ρ) (id : Nat) (c : chain ρ) :
    r.fmtIdKey d id = r.Conf.Prefix ++ "::" ++ d.CHAIN_KEY ++ "::" ++ Nat.repr id
    ∧ r.fmtChainKey d (some c) = .ret (r.fmtIdKey d c.JobChain.RequestId)
    ∧ (∀ (τ : Type) (r2 : RedisRepo τ), r2.Conf.Prefix = r.Conf.Prefix →
        r2.fmtIdKey d id = r.fmtIdKey d id)
    ∧ (∀ (reply : Reply × Option Error) (log : List Command) (m : Bytes),
        jsonMarshal d (some c) = .ok m →
        ((RedisRepo.mk (logConn reply) r.Conf).Add d (some c) log).2
            = log ++ [.SETNX (r.fmtIdKey d c.JobChain.RequestId) m]
        ∧ ((RedisRepo.mk (logConn reply) r.Conf).Set d (some c) log).2
            = log ++ [.SET (r.fmtIdKey d c.JobChain.RequestId) m])
    ∧ (∀ (reply : Reply × Option Error) (log : List Command),
        ((RedisRepo.mk (logConn reply) r.Conf).Get d id log).2
            = log ++ [.GET (r.fmtIdKey d id)]
        ∧ ((RedisRepo.mk (logConn reply) r.Conf).Remove d id log).2
            = log ++ [.DEL (r.fmtIdKey d id)])
    ∧ (∀ (s : Store) (m : Bytes), jsonMarshal d (some c) = .ok m →
        ((RedisRepo.onServer r.Conf).Get d c.JobChain.RequestId
            ((RedisRepo.onServer r.Conf).Set d (some c) s).2
          = match jsonUnmarshal d m with
            | .error err =>
              (.ret (none, some err), s.put (r.fmtIdKey d c.JobChain.RequestId) m)
            | .ok none => (.panic nilDeref, s.put (r.fmtIdKey d c.JobChain.RequestId) m)
            | .ok (some g) =>
              (.ret (some { g with RWMutex := some RWMutex.new }, none),
                s.put (r.fmtIdKey d c.JobChain.RequestId) m))
        ∧ (RedisRepo.onServer r.Conf).Remove d c.JobChain.RequestId
            ((RedisRepo.onServer r.Conf).Set d (some c) s).2
          = (.ret none, (s.put (r.fmtIdKey d c.JobChain.RequestId) m).del
              (r.fmtIdKey d c.JobChain.RequestId))
        ∧ (s (r.fmtIdKey d c.JobChain.RequestId) = none →
            ((RedisRepo.onServer r.Conf).Get d c.JobChain.RequestId
                ((RedisRepo.onServer r.Conf).Add d (some c) s).2
              = match jsonUnmarshal d m with
                | .error err =>
                  (.ret (none, some err), s.put (r.fmtIdKey d c.JobChain.RequestId) m)
                | .ok none => (.panic nilDeref, s.put (r.fmtIdKey d c.JobChain.RequestId) m)
                | .ok (some g) =>
                  (.ret (some { g with RWMutex := some RWMutex.new }, none),
                    s.put (r.fmtIdKey d c.JobChain.RequestId) m))
            ∧ (RedisRepo.onServer r.Conf).Remove d c.JobChain.RequestId
                ((RedisRepo.onServer r.Conf).Add d (some c) s).2
              = (.ret none, (s.put (r.fmtIdKey d c.JobChain.RequestId) m).del
                  (r.fmtIdKey d c.JobChain.RequestId)))) := by
  have hk : ∀ n, (RedisRepo.onServer r.Conf).fmtIdKey d n = r.fmtIdKey d n :=
    fun n => fmtIdKey_conf r _ d n rfl
  have hl : ∀ reply n, (RedisRepo.mk (logConn reply) r.Conf).fmtIdKey d n = r.fmtIdKey d n :=
    fun reply n => fmtIdKey_conf r _ d n rfl
  refine ⟨?_, rfl, ?_, ?_, ?_, ?_⟩
  · apply String.ext
    rw [fmtIdKey_data]
    simp [String.data_append]
  · intro τ r2 h
    apply String.ext
    rw [fmtIdKey_data, fmtIdKey_data, h]
  · intro reply log m hm
    rw [Add_sends _ reply rfl d c m log hm, Set_sends _ reply rfl d c m log hm, hl]
    exact ⟨rfl, rfl⟩
  · intro reply log
    rw [Get_sends _ reply rfl d id log, Remove_sends _ reply rfl d id log, hl]
    exact ⟨rfl, rfl⟩
  · intro s m hm
    have hset := Set_of_marshal_ok (RedisRepo.onServer r.Conf) rfl d c m s hm
    rw [hk] at hset
    have hput : (s.put (r.fmtIdKey d c.JobChain.RequestId) m)
        ((RedisRepo.onServer r.Conf).fmtIdKey d c.JobChain.RequestId) = some m := by
      rw [hk]; exact Store.put_same _ _ _
    have hget := Get_of_present (RedisRepo.onServer r.Conf) rfl d c.JobChain.RequestId _ m hput
    have hrem := Remove_of_present (RedisRepo.onServer r.Conf) rfl d c.JobChain.RequestId _ m hput
    rw [hk] at hrem
    refine ⟨?_, ?_, fun habs => ?_⟩
    · rw [hset]; exact hget
    · rw [hset]; exact hrem
    · have hadd := Add_of_absent (RedisRepo.onServer r.Conf) rfl d c m s hm (by rw [hk]; exact habs)
      rw [hk] at hadd
      rw [hadd]
      exact ⟨hget, hrem⟩

/-- A concrete instance: the key of request 7 under prefix `SpinCycle` and chain key
`ChainById`; the commands that `Add` of the sample chain and `Get(7)` send; and `Remove(7)`
right after `Set` of the sample chain on the empty store returns nil. -/
theorem key_format_witness :
    (RedisRepo.onServer sampleConf).fmtIdKey sampleDecls 7 = "SpinCycle::ChainById::7"
    ∧ ((RedisRepo.mk (logConn (.int 1, none)) sampleConf).Add sampleDecls
          (some sampleChain) []).2
        = [.SETNX ((RedisRepo.onServer sampleConf).fmtIdKey sampleDecls 7) [0x37]]
    ∧ ((RedisRepo.mk (logConn (.nil, none)) sampleConf).Get sampleDecls 7 []).2
        = [.GET ((RedisRepo.onServer sampleConf).fmtIdKey sampleDecls 7)]
    ∧ ((RedisRepo.onServer sampleConf).Remove sampleDecls 7
          ((RedisRepo.onServer sampleConf).Set sampleDecls (some sampleChain) emptyStore).2).1
        = .ret none :=
  ⟨(key_format (RedisRepo.onServer sampleConf) sampleDecls 7 sampleChain).1.trans (by decide),
   ((key_format (RedisRepo.onServer sampleConf) sampleDecls 7 sampleChain).2.2.2.1
      (.int 1, none) [] [0x37] rfl).1,
   ((key_format (RedisRepo.onServer sampleConf) sampleDecls 7 sampleChain).2.2.2.2.1
      (.nil, none) []).1,
   congrArg Prod.fst
     ((key_format (RedisRepo.onServer sampleConf) sampleDecls 7 sampleChain).2.2.2.2.2
        emptyStore [0x37] rfl).2.1⟩

/-- C10. Keys do not collide within one repository: two request ids have the same key
exactly when they are equal.  Hence, on a Redis store, `Add`, `Set` and `Remove` for
request `a` leave the record of any other request `b` as it is, `Get` leaves the whole
store as it is, and what `Get` returns for `a` depends on the store only through the
record under the key of `a`. -/
theorem keys_do_not_collide (conf : RedisRepoConfig) (d : Decls ρ) (a b : Nat) :
    ((RedisRepo.onServer conf).fmtIdKey d a = (RedisRepo.onServer conf).fmtIdKey d b ↔ a = b)
    ∧ (a ≠ b → ∀ (s : Store) (c : chain ρ), c.JobChain.RequestId = a →
        ((RedisRepo.onServer conf).Add d (some c) s).2 ((RedisRepo.onServer conf).fmtIdKey d b)
            = s ((RedisRepo.onServer conf).fmtIdKey d b)
        ∧ ((RedisRepo.onServer conf).Set d (some c) s).2 ((RedisRepo.onServer conf).fmtIdKey d b)
            = s ((RedisRepo.onServer conf).fmtIdKey d b)
        ∧ ((RedisRepo.onServer conf).Remove d a s).2 ((RedisRepo.onServer conf).fmtIdKey d b)
            = s ((RedisRepo.onServer conf).fmtIdKey d b))
    ∧ (∀ s : Store, ((RedisRepo.onServer conf).Get d a s).2 = s)
    ∧ (∀ s t : Store,
        s ((RedisRepo.onServer conf).fmtIdKey d a) = t ((RedisRepo.onServer conf).fmtIdKey d a) →
        ((RedisRepo.onServer conf).Get d a s).1 = ((RedisRepo.onServer conf).Get d a t).1) := by
  refine ⟨⟨fun h => fmtIdKey_inj _ d h, fun h => by rw [h]⟩, ?_, ?_, ?_⟩
  · intro hab s c hc
    have hk : (RedisRepo.onServer conf).fmtIdKey d b ≠ (RedisRepo.onServer conf).fmtIdKey d a :=
      fun h => hab (fmtIdKey_inj _ d h).symm
    subst hc
    refine ⟨?_, ?_, ?_⟩
    · cases hm : jsonMarshal d (some c) with
      | error e => rw [Add_of_marshal_error _ d _ e s hm]
      | ok m =>
        cases hs : s ((RedisRepo.onServer conf).fmtIdKey d c.JobChain.RequestId) with
        | none => rw [Add_of_absent _ rfl d c m s hm hs]; exact Store.put_other _ _ _ _ hk
        | some v => rw [Add_of_present _ rfl d c m v s hm hs]
    · cases hm : jsonMarshal d (some c) with
      | error e => rw [Set_of_marshal_error _ d _ e s hm]
      | ok m => rw [Set_of_marshal_ok _ rfl d c m s hm]; exact Store.put_other _ _ _ _ hk
    · cases hs : s ((RedisRepo.onServer conf).fmtIdKey d c.JobChain.RequestId) with
      | none => rw [Remove_of_absent _ rfl d _ s hs]
      | some v => rw [Remove_of_present _ rfl d _ s v hs]; exact Store.del_other _ _ _ hk
  · intro s
    cases hs : s ((RedisRepo.onServer conf).fmtIdKey d a) with
    | none => rw [Get_of_absent _ rfl d a s hs]
    | some v =>
      rw [Get_of_present _ rfl d a s v hs]
      cases jsonUnmarshal d v with
      | error e => rfl
      | ok o => cases o <;> rfl
  · intro s t h
    cases ht : t ((RedisRepo.onServer conf).fmtIdKey d a) with
    | none => rw [Get_of_absent _ rfl d a t ht, Get_of_absent _ rfl d a s (h.trans ht)]
    | some v =>
      rw [Get_of_present _ rfl d a t v ht, Get_of_present _ rfl d a s v (h.trans ht)]
      cases jsonUnmarshal d v with
      | error e => rfl
      | ok o => cases o <;> rfl

/-- A concrete instance: requests 7 and 8 have different keys, and adding
the sample chain (request 7) to the empty store leaves the key of request 8 empty. -/
theorem keys_do_not_collide_witness :
    (RedisRepo.onServer sampleConf).fmtIdKey sampleDecls 7
        ≠ (RedisRepo.onServer sampleConf).fmtIdKey sampleDecls 8
    ∧ ((RedisRepo.onServer sampleConf).Add sampleDecls (some sampleChain) emptyStore).2
        ((RedisRepo.onServer sampleConf).fmtIdKey sampleDecls 8) = none :=
  ⟨fun h => absurd ((keys_do_not_collide sampleConf sampleDecls 7 8).1.mp h) (by decide),
   ((keys_do_not_collide sampleConf sampleDecls 7 8).2.1 (by decide) emptyStore sampleChain rfl).1⟩

theorem Get_returns_new_mutex (r : RedisRepo σ) (d : Decls ρ) (id : Nat) (s : σ)
    (c : chain ρ) (e : Option Error) (h : (r.Get d id s).1 = .ret (some c, e)) :
    c.RWMutex = some RWMutex.new ∧ e = none := by
  simp only [RedisRepo.Get] at h
  split at h
  · simp at h
  · split at h
    · simp at h
    · simp at h
    · simp only [Outcome.ret.injEq, Prod.mk.injEq, Option.some.injEq] at h
      obtain ⟨rfl, rfl⟩ := h
      exact ⟨rfl, rfl⟩

/-- C1. `Add` is create-if-absent on a Redis store: for a chain that marshals to `m`, if
the chain's key holds no record then `Add` returns nil and the store afterwards holds
`m` under that key; if the key holds a record then `Add` returns `ErrConflict` and the
store is unchanged.  So a second `Add` of a chain with the same request id (marshalling
to some `m2`), right after a first one on an empty key, returns `ErrConflict` and leaves
the record of the first. -/
theorem add_create_if_absent (conf : RedisRepoConfig) (d : Decls ρ) (c c2 : chain ρ)
    (m m2 : Bytes) (s : Store)
    (hm : jsonMarshal d (some c) = .ok m) (hm2 : jsonMarshal d (some c2) = .ok m2)
    (hid : c2.JobChain.RequestId = c.JobChain.RequestId) :
    (s ((RedisRepo.onServer conf).fmtIdKey d c.JobChain.RequestId) = none →
        (RedisRepo.onServer conf).Add d (some c) s
          = (.ret none, s.put ((RedisRepo.onServer conf).fmtIdKey d c.JobChain.RequestId) m)
        ∧ (s.put ((RedisRepo.onServer conf).fmtIdKey d c.JobChain.RequestId) m)
            ((RedisRepo.onServer conf).fmtIdKey d c.JobChain.RequestId) = some m)
    ∧ (∀ v, s ((RedisRepo.onServer conf).fmtIdKey d c.JobChain.RequestId) = some v →
        (RedisRepo.onServer conf).Add d (some c) s = (.ret (some .ErrConflict), s))
    ∧ (s ((RedisRepo.onServer conf).fmtIdKey d c.JobChain.RequestId) = none →
        (RedisRepo.onServer conf).Add d (some c2) ((RedisRepo.onServer conf).Add d (some c) s).2
          = (.ret (some .ErrConflict),
              s.put ((RedisRepo.onServer conf).fmtIdKey d c.JobChain.RequestId) m)) := by
  refine ⟨fun h => ⟨Add_of_absent _ rfl d c m s hm h, Store.put_same _ _ _⟩,
    fun v h => Add_of_present _ rfl d c m v s hm h, fun h => ?_⟩
  rw [Add_of_absent _ rfl d c m s hm h]
  exact Add_of_present _ rfl d c2 m2 m _ hm2 (by rw [hid]; exact Store.put_same _ _ _)

/-- A concrete instance: on the empty store the sample chain is added and
a second `Add` of it is a conflict. -/
theorem add_create_if_absent_witness :
    (RedisRepo.onServer sampleConf).Add sampleDecls (some sampleChain) emptyStore
        = (.ret none, emptyStore.put
            ((RedisRepo.onServer sampleConf).fmtIdKey sampleDecls 7) [0x37])
    ∧ (RedisRepo.onServer sampleConf).Add sampleDecls (some sampleChain)
          ((RedisRepo.onServer sampleConf).Add sampleDecls (some sampleChain) emptyStore).2
        = (.ret (some .ErrConflict), emptyStore.put
            ((RedisRepo.onServer sampleConf).fmtIdKey sampleDecls 7) [0x37]) :=
  ⟨((add_create_if_absent sampleConf sampleDecls sampleChain sampleChain [0x37] [0x37]
      emptyStore rfl rfl rfl).1 rfl).1,
   (add_create_if_absent sampleConf sampleDecls sampleChain sampleChain [0x37] [0x37]
      emptyStore rfl rfl rfl).2.2 rfl⟩

/-- C2 (what the code does). `Get` for a key without a record returns a nil chain together
with redigo's `ErrNil`, the error of `redis.Bytes` on a nil reply, which is not the
repository's `ErrNotFound`; `Remove` on the same store does return `ErrNotFound`. -/
theorem get_absent_returns_redis_nil (conf : RedisRepoConfig) (d : Decls ρ) (id : Nat)
    (s : Store) (h : s ((RedisRepo.onServer conf).fmtIdKey d id) = none) :
    (RedisRepo.onServer conf).Get d id s = (.ret (none, some .redisErrNil), s)
    ∧ (RedisRepo.onServer conf).Get d id s ≠ (.ret (none, some .ErrNotFound), s)
    ∧ (RedisRepo.onServer conf).Remove d id s = (.ret (some .ErrNotFound), s) := by
  refine ⟨Get_of_absent _ rfl d id s h, ?_, Remove_of_absent _ rfl d id s h⟩
  rw [Get_of_absent _ rfl d id s h]
  intro hc
  have := congrArg Prod.fst hc
  simp at this

/-- A concrete instance on the empty store. -/
theorem get_absent_returns_redis_nil_witness :
    (RedisRepo.onServer sampleConf).Get sampleDecls 7 emptyStore
        = (.ret (none, some .redisErrNil), emptyStore)
    ∧ (RedisRepo.onServer sampleConf).Get sampleDecls 7 emptyStore
        ≠ (.ret (none, some .ErrNotFound), emptyStore) :=
  ⟨(get_absent_returns_redis_nil sampleConf sampleDecls 7 emptyStore rfl).1,
   (get_absent_returns_redis_nil sampleConf sampleDecls 7 emptyStore rfl).2.1⟩

/-- C3. `Remove` classifies the count reported by `DEL`, over any connection: when the
command succeeds with the integer `n`, `Remove` returns `ErrNotFound` exactly when
`n = 0`, nil exactly when `n = 1` and `ErrMultipleDeleted` exactly when `n > 1`;
`ErrMultipleDeleted` differs from `ErrNotFound`; and when the command fails, `Remove`
returns the command's error itself. -/
theorem remove_classifies_count (r : RedisRepo σ) (d : Decls ρ) (id : Nat) (s s1 : σ) :
    (∀ n : Nat, r.ConnectionPool.Do (.DEL (r.fmtIdKey d id)) s = ((.int n, none), s1) →
        ∃ e, r.Remove d id s = (.ret e, s1)
          ∧ (e = some .ErrNotFound ↔ n = 0)
          ∧ (e = none ↔ n = 1)
          ∧ (e = some .ErrMultipleDeleted ↔ 1 < n))
    ∧ Error.ErrMultipleDeleted ≠ Error.ErrNotFound
    ∧ (∀ (reply : Reply) (err : Error),
        r.ConnectionPool.Do (.DEL (r.fmtIdKey d id)) s = ((reply, some err), s1) →
        r.Remove d id s = (.ret (some err), s1)) := by
  refine ⟨?_, by decide, ?_⟩
  · intro n h
    match n, h with
    | 0, h => exact ⟨some .ErrNotFound, by simp [RedisRepo.Remove, h, redisUint64], by simp⟩
    | 1, h => exact ⟨none, by simp [RedisRepo.Remove, h, redisUint64], by simp⟩
    | k + 2, h =>
      refine ⟨some .ErrMultipleDeleted, ?_, by simp⟩
      have hk : ¬ ((k : Int) + 2 < 0) := by omega
      have ht : ((k : Int) + 2).toNat = k + 2 := by omega
      simp [RedisRepo.Remove, h, redisUint64, hk, ht]
  · intro reply err h
    simp [RedisRepo.Remove, h, redisUint64]

/-- A concrete instance: over a connection whose `DEL` reports two
deleted records, `Remove` returns `ErrMultipleDeleted`. -/
theorem remove_classifies_count_witness :
    (RedisRepo.mk (constConn (.int 2, none)) sampleConf).Remove sampleDecls 7 ()
      = (.ret (some .ErrMultipleDeleted), ()) := by
  obtain ⟨e, he, _, _, h3⟩ :=
    (remove_classifies_count (RedisRepo.mk (constConn (.int 2, none)) sampleConf)
      sampleDecls 7 () ()).1 2 rfl
  rw [he, h3.mpr (by decide)]

/-- C4. `Remove` on a Redis store: on a key without a record it returns `ErrNotFound` and
leaves the store unchanged; on a key with a record it returns nil, the key holds nothing
afterwards and every other key holds what it held, and a second `Remove` right after
returns `ErrNotFound`.  `Remove` never returns `ErrMultipleDeleted` here. -/
theorem remove_on_store (conf : RedisRepoConfig) (d : Decls ρ) (id : Nat) (s : Store) :
    (s ((RedisRepo.onServer conf).fmtIdKey d id) = none →
        (RedisRepo.onServer conf).Remove d id s = (.ret (some .ErrNotFound), s))
    ∧ (∀ v, s ((RedisRepo.onServer conf).fmtIdKey d id) = some v →
        (RedisRepo.onServer conf).Remove d id s
          = (.ret none, s.del ((RedisRepo.onServer conf).fmtIdKey d id))
        ∧ (s.del ((RedisRepo.onServer conf).fmtIdKey d id))
            ((RedisRepo.onServer conf).fmtIdKey d id) = none
        ∧ (∀ k, k ≠ (RedisRepo.onServer conf).fmtIdKey d id →
            (s.del ((RedisRepo.onServer conf).fmtIdKey d id)) k = s k)
        ∧ (RedisRepo.onServer conf).Remove d id ((RedisRepo.onServer conf).Remove d id s).2
          = (.ret (some .ErrNotFound), s.del ((RedisRepo.onServer conf).fmtIdKey d id)))
    ∧ ((RedisRepo.onServer conf).Remove d id s).1 ≠ .ret (some .ErrMultipleDeleted) := by
  refine ⟨fun h => Remove_of_absent _ rfl d id s h, fun v h => ?_, ?_⟩
  · refine ⟨Remove_of_present _ rfl d id s v h, Store.del_same _ _,
      fun k hk => Store.del_other _ _ _ hk, ?_⟩
    rw [Remove_of_present _ rfl d id s v h]
    exact Remove_of_absent _ rfl d id _ (Store.del_same _ _)
  · cases h : s ((RedisRepo.onServer conf).fmtIdKey d id) with
    | none => rw [Remove_of_absent _ rfl d id s h]; simp
    | some v => rw [Remove_of_present _ rfl d id s v h]; simp

/-- A concrete instance: removing request 7 from the store that holds only its
record succeeds, and removing it again is `ErrNotFound`. -/
theorem remove_on_store_witness :
    (RedisRepo.onServer sampleConf).Remove sampleDecls 7
        (emptyStore.put ((RedisRepo.onServer sampleConf).fmtIdKey sampleDecls 7) [0x37])
      = (.ret none,
          (emptyStore.put ((RedisRepo.onServer sampleConf).fmtIdKey sampleDecls 7) [0x37]).del
            ((RedisRepo.onServer sampleConf).fmtIdKey sampleDecls 7))
    ∧ (RedisRepo.onServer sampleConf).Remove sampleDecls 7
        ((RedisRepo.onServer sampleConf).Remove sampleDecls 7
          (emptyStore.put ((RedisRepo.onServer sampleConf).fmtIdKey sampleDecls 7) [0x37])).2
      = (.ret (some .ErrNotFound),
          (emptyStore.put ((RedisRepo.onServer sampleConf).fmtIdKey sampleDecls 7) [0x37]).del
            ((RedisRepo.onServer sampleConf).fmtIdKey sampleDecls 7)) :=
  ⟨((remove_on_store sampleConf sampleDecls 7 _).2.1 [0x37] (Store.put_same _ _ _)).1,
   ((remove_on_store sampleConf sampleDecls 7 _).2.1 [0x37] (Store.put_same _ _ _)).2.2.2⟩

/-- C5. `Set` then `Get` round trip on a Redis store: for a chain `c` that marshals to `m`
and whose `m` unmarshals to a chain `c2` with the same serialised fields, `Set` returns
nil and the store afterwards holds `m` under the chain's key, whatever it held before;
`Get` of the chain's request id then returns, with a nil error, the chain that has the
serialised fields of `c` and a new, unlocked mutex. -/
theorem set_get_round_trip (conf : RedisRepoConfig) (d : Decls ρ) (c c2 : chain ρ) (m : Bytes)
    (s : Store) (hm : jsonMarshal d (some c) = .ok m) (hu : jsonUnmarshal d m = .ok (some c2))
    (heq : c2.JobChain = c.JobChain) :
    (RedisRepo.onServer conf).Set d (some c) s
        = (.ret none, s.put ((RedisRepo.onServer conf).fmtIdKey d c.JobChain.RequestId) m)
    ∧ (s.put ((RedisRepo.onServer conf).fmtIdKey d c.JobChain.RequestId) m)
        ((RedisRepo.onServer conf).fmtIdKey d c.JobChain.RequestId) = some m
    ∧ (RedisRepo.onServer conf).Get d c.JobChain.RequestId
          ((RedisRepo.onServer conf).Set d (some c) s).2
        = (.ret (some { JobChain := c.JobChain, RWMutex := some RWMutex.new }, none),
            s.put ((RedisRepo.onServer conf).fmtIdKey d c.JobChain.RequestId) m) := by
  refine ⟨Set_of_marshal_ok _ rfl d c m s hm, Store.put_same _ _ _, ?_⟩
  rw [Set_of_marshal_ok _ rfl d c m s hm, Get_of_present _ rfl d _ _ m (Store.put_same _ _ _)]
  simp [hu, heq]

/-- A concrete instance: the sample chain written over an older record of
request 7 is read back with its serialised fields and a new mutex. -/
theorem set_get_round_trip_witness :
    (RedisRepo.onServer sampleConf).Get sampleDecls 7
        ((RedisRepo.onServer sampleConf).Set sampleDecls (some sampleChain)
          (emptyStore.put ((RedisRepo.onServer sampleConf).fmtIdKey sampleDecls 7) [0x30])).2
      = (.ret (some { JobChain := sampleChain.JobChain, RWMutex := some RWMutex.new }, none),
          (emptyStore.put ((RedisRepo.onServer sampleConf).fmtIdKey sampleDecls 7) [0x30]).put
            ((RedisRepo.onServer sampleConf).fmtIdKey sampleDecls 7) [0x37]) :=
  (set_get_round_trip sampleConf sampleDecls sampleChain
    { JobChain := { RequestId := 7, rest := () }, RWMutex := none } [0x37]
    (emptyStore.put ((RedisRepo.onServer sampleConf).fmtIdKey sampleDecls 7) [0x30])
    rfl rfl rfl).2.2

/-- C9 (what the code does). When the record under the key is the JSON literal `null`,
with or without white space around it, `Get` on a Redis store neither returns an error
nor a chain: `json.Unmarshal` leaves the chain pointer nil and the mutex assignment
panics on it.  Whenever `Get` does return a chain, over any connection, the error is
nil and the chain's mutex is a new, unlocked one. -/
theorem get_null_record_panics (conf : RedisRepoConfig) (d : Decls ρ) (id : Nat) (s : Store) :
    (∀ data, s ((RedisRepo.onServer conf).fmtIdKey d id) = some data →
        trimJsonSpace data = nullLiteral →
        (RedisRepo.onServer conf).Get d id s = (.panic nilDeref, s))
    ∧ (∀ (c : chain ρ) (e : Option Error),
        ((RedisRepo.onServer conf).Get d id s).1 = .ret (some c, e) →
        c.RWMutex = some RWMutex.new ∧ e = none) := by
  refine ⟨fun data h hn => ?_, fun c e h => Get_returns_new_mutex _ d id s c e h⟩
  rw [Get_of_present _ rfl d id s data h]
  simp [jsonUnmarshal, hn]

/-- A concrete instance: with `null` stored under the key of request 7,
`Get(7)` panics. -/
theorem get_null_record_panics_witness :
    (RedisRepo.onServer sampleConf).Get sampleDecls 7
        (emptyStore.put ((RedisRepo.onServer sampleConf).fmtIdKey sampleDecls 7) nullLiteral)
      = (.panic nilDeref,
          emptyStore.put ((RedisRepo.onServer sampleConf).fmtIdKey sampleDecls 7) nullLiteral) :=
  (get_null_record_panics sampleConf sampleDecls 7 _).1 nullLiteral (Store.put_same _ _ _)
    (by decide)

end JobRunner

namespace Grapher

variable {ι ν : Type}

/-- C7. The no-op job always succeeds: for every job-data map, nil included, `Run` returns
a nil error and a `job.Return` with state `STATE_COMPLETE`, exit 0, a nil error and empty
stdout and stderr; `Create`, `Deserialize` and `Stop` return nil, `Serialize` returns
`(nil, nil)` and `Id` returns the id the job holds; each call leaves the job and its
argument as they were. -/
theorem noop_always_succeeds (j : noopJob ι) (jobData jobArgs : GoMap ν)
    (bytes : Option (List UInt8)) :
    ((j.Run jobData).result
        = ({ Exit := 0, Error := none, Stdout := "", Stderr := "", State := .STATE_COMPLETE },
            none)
      ∧ (j.Run jobData).receiver = j ∧ (j.Run jobData).arg = jobData)
    ∧ ((j.Create jobArgs).result = none
      ∧ (j.Create jobArgs).receiver = j ∧ (j.Create jobArgs).arg = jobArgs)
    ∧ ((j.Deserialize bytes).result = none
      ∧ (j.Deserialize bytes).receiver = j ∧ (j.Deserialize bytes).arg = bytes)
    ∧ (j.Stop.result = none ∧ j.Stop.receiver = j)
    ∧ (j.Serialize.result = (none, none) ∧ j.Serialize.receiver = j)
    ∧ (j.Id.result = j.id ∧ j.Id.receiver = j) :=
  ⟨⟨rfl, rfl, rfl⟩, ⟨rfl, rfl, rfl⟩, ⟨rfl, rfl, rfl⟩, ⟨rfl, rfl⟩, ⟨rfl, rfl⟩, ⟨rfl, rfl⟩⟩

end Grapher

namespace Joblog

theorem scan_eq_toJobLog (row : Row) :
    (let jl := { JobLog.zero with
        RequestId := row.request_id, JobId := row.job_id, Name := row.name, Type_ := row.type,
        State := row.state, StartedAt := row.started_at, FinishedAt := row.finished_at,
        Try := row.try_ }
      let jErr := scanNullString row.error
      let exit := scanNullInt64 row.exit
      let stdout := scanNullString row.stdout
      let stderr := scanNullString row.stderr
      let jl := if jErr.Valid then { jl with Error := jErr.String } else jl
      let jl := if stdout.Valid then { jl with Stdout := stdout.String } else jl
      let jl := if stderr.Valid then { jl with Stderr := stderr.String } else jl
      let jl := if exit.Valid then { jl with Exit := exit.Int64 } else jl
      jl) = row.toJobLog := by
  obtain ⟨rid, jid, nm, tr, ty, sa, fa, st, ex, er, so, se⟩ := row
  cases ex <;> cases er <;> cases so <;> cases se <;> rfl

theorem head_insertionSort_max (l : List Row) (row : Row)
    (h : (l.insertionSort tryDesc).head? = some row) :
    row ∈ l ∧ ∀ r ∈ l, r.try_ ≤ row.try_ := by
  have hperm := List.perm_insertionSort tryDesc l
  have hsorted := List.sorted_insertionSort tryDesc l
  cases hs : l.insertionSort tryDesc with
  | nil => rw [hs] at h; simp at h
  | cons a tl =>
    rw [hs] at h hperm hsorted
    simp only [List.head?_cons, Option.some.injEq] at h
    subst h
    refine ⟨hperm.subset (List.mem_cons_self _ _), fun r hr => ?_⟩
    have hr2 : r ∈ a :: tl := hperm.symm.subset hr
    rcases List.mem_cons.mp hr2 with rfl | hmem
    · exact Nat.le_refl _
    · exact List.rel_of_sorted_cons hsorted r hmem

theorem head_insertionSort_none (l : List Row)
    (h : (l.insertionSort tryDesc).head? = none) : l = [] := by
  have hperm := List.perm_insertionSort tryDesc l
  cases hs : l.insertionSort tryDesc with
  | nil => rw [hs] at hperm; exact List.Perm.eq_nil hperm.symm
  | cons a tl => rw [hs] at h; simp at h

theorem Get_of_query_ok (rows : List Row) (requestId jobId : String) (row : Row)
    (h : queryLatest { job_log := rows, fault := none } requestId jobId = .ok row) :
    (store.onTable rows).Get requestId jobId = (row.toJobLog, none) := by
  simp only [store.Get, store.onTable, h]
  exact congrArg (fun x => (x, (none : Option Error))) (scan_eq_toJobLog row)

theorem Get_of_query_no_rows (rows : List Row) (requestId jobId : String)
    (h : queryLatest { job_log := rows, fault := none } requestId jobId = .error .sqlErrNoRows) :
    (store.onTable rows).Get requestId jobId = (JobLog.zero, some (NewErrNotFound "job log")) := by
  simp only [store.Get, store.onTable, h, if_true]

/-- C8. Job-log `Get` returns the latest attempt, over a reachable database whose table
`job_log` is a list of rows: if some row has the given request id and job id, `Get`
returns nil as error and the record of one of those rows whose `try` is the largest
among them, a NULL in `error`, `exit`, `stdout` or `stderr` giving the zero value of the
field; if no row has them, `Get` returns the error `db.NewErrNotFound("job log")`. -/
theorem get_returns_latest_attempt (rows : List Row) (requestId jobId : String) :
    ((∃ r ∈ rows, r.request_id = requestId ∧ r.job_id = jobId) →
        ∃ row ∈ rows, row.request_id = requestId ∧ row.job_id = jobId
          ∧ (∀ r ∈ rows, r.request_id = requestId → r.job_id = jobId → r.try_ ≤ row.try_)
          ∧ (store.onTable rows).Get requestId jobId = (row.toJobLog, none))
    ∧ ((¬ ∃ r ∈ rows, r.request_id = requestId ∧ r.job_id = jobId) →
        ((store.onTable rows).Get requestId jobId).2 = some (NewErrNotFound "job log")) := by
  cases hq : ((rows.filter (fun r => r.request_id = requestId ∧ r.job_id = jobId)).insertionSort
      tryDesc).head? with
  | none =>
    have hnil := head_insertionSort_none _ hq
    have hno : ¬ ∃ r ∈ rows, r.request_id = requestId ∧ r.job_id = jobId := by
      rintro ⟨r, hr, h1, h2⟩
      have : r ∈ rows.filter (fun r => r.request_id = requestId ∧ r.job_id = jobId) := by
        simp [List.mem_filter, hr, h1, h2]
      rw [hnil] at this
      simp at this
    refine ⟨fun h => absurd h hno, fun _ => ?_⟩
    have hql : queryLatest { job_log := rows, fault := none } requestId jobId
        = .error .sqlErrNoRows := by
      simp only [queryLatest, hq]
    rw [Get_of_query_no_rows rows requestId jobId hql]
  | some row =>
    obtain ⟨hmem, hmax⟩ := head_insertionSort_max _ row hq
    simp only [List.mem_filter, decide_eq_true_eq] at hmem hmax
    refine ⟨fun _ => ⟨row, hmem.1, hmem.2.1, hmem.2.2,
      fun r hr h1 h2 => hmax r ⟨hr, h1, h2⟩, ?_⟩, fun hno => absurd ⟨row, hmem.1, hmem.2⟩ hno⟩
    have hql : queryLatest { job_log := rows, fault := none } requestId jobId = .ok row := by
      simp only [queryLatest, hq]
    exact Get_of_query_ok rows requestId jobId row hql

/-- A concrete instance: among the sample rows, `Get` for job `a` of
request `r1` has no error and carries attempt 2, and `Get` for a job without rows is not
found. -/
theorem get_returns_latest_attempt_witness :
    (∃ row ∈ sampleRows, row.try_ = 2
        ∧ (store.onTable sampleRows).Get "r1" "a" = (row.toJobLog, none))
    ∧ ((store.onTable sampleRows).Get "r1" "c").2 = some (NewErrNotFound "job log") := by
  obtain ⟨row, hrow, h1, h2, hmax, hget⟩ :=
    (get_returns_latest_attempt sampleRows "r1" "a").1
      ⟨sampleRows.get ⟨1, by decide⟩, by decide, by decide⟩
  refine ⟨⟨row, hrow, ?_, hget⟩,
    (get_returns_latest_attempt sampleRows "r1" "c").2 (by decide)⟩
  have h2le := hmax (sampleRows.get ⟨1, by decide⟩) (by decide) (by decide) (by decide)
  simp only [sampleRows, List.mem_cons, List.mem_singleton, List.not_mem_nil, or_false] at hrow
  rcases hrow with rfl | rfl | rfl
  · exact absurd h2le (by decide)
  · rfl
  · exact absurd h2 (by decide)

end Joblog
